import Mathlib

/-!
Verification development for the MacCMS V10 compatibility adapter
(`src/lib/maccms.params.ts`, `src/lib/maccms.cache.ts`,
`src/lib/maccms.transformer.ts`, `src/app/api/maccms/route.ts`).

The TypeScript sources are shallowly embedded: every definition below mirrors
one source function.  JavaScript numbers are modelled as `Int` (the values in
play are integral), strings as Lean `String`/`List Char`, `undefined`/missing
values as `Option`, and ambient host behaviour (the clock, `Date` parsing,
locale formatting, floating-point formatting) as an explicit `JsEnv` record of
functions that the theorems quantify over.
-/

namespace Maccms

/-! ## JavaScript string and number primitives -/

/-- The character class matched by JavaScript's `\s` (and trimmed by
`String.prototype.trim` and skipped by `parseInt`). -/
def isJsSpace (c : Char) : Bool :=
  c = ' ' ∨ c = '\t' ∨ c = '\n' ∨ c = '\r' ∨ c.toNat = 0xb ∨ c.toNat = 0xc ∨
  c.toNat = 0xa0 ∨ c.toNat = 0x1680 ∨ (0x2000 ≤ c.toNat ∧ c.toNat ≤ 0x200a) ∨
  c.toNat = 0x2028 ∨ c.toNat = 0x2029 ∨ c.toNat = 0x202f ∨ c.toNat = 0x205f ∨
  c.toNat = 0x3000 ∨ c.toNat = 0xfeff

/-- `String.prototype.trim` on a character list. -/
def jsTrimList (l : List Char) : List Char :=
  ((l.dropWhile isJsSpace).reverse.dropWhile isJsSpace).reverse

/-- `String.prototype.trim`. -/
def jsTrim (s : String) : String := ⟨jsTrimList s.data⟩

/-- `String.prototype.toLowerCase` (ASCII range, which is all the code uses). -/
def jsToLower (s : String) : String := ⟨s.data.map Char.toLower⟩

/-- Digit value of a character in the given radix, as read by `parseInt`. -/
def digitVal (radix : Nat) (c : Char) : Option Nat :=
  let v : Option Nat :=
    if '0' ≤ c ∧ c ≤ '9' then some (c.toNat - '0'.toNat)
    else if 'a' ≤ c ∧ c ≤ 'z' then some (c.toNat - 'a'.toNat + 10)
    else if 'A' ≤ c ∧ c ≤ 'Z' then some (c.toNat - 'A'.toNat + 10)
    else none
  match v with
  | some d => if d < radix then some d else none
  | none => none

/-- Accumulate the value of a digit string. -/
def natFromDigits (radix : Nat) (l : List Char) : Nat :=
  l.foldl (fun acc c => acc * radix + ((digitVal radix c).getD 0)) 0

/-- JavaScript `parseInt(s, radix)` (for radix 10 and 36, which is what the
code uses: no `0x` handling, leading whitespace skipped, optional sign,
longest digit run, `NaN` — modelled as `none` — when no digit is read). -/
def jsParseIntR (radix : Nat) (s : String) : Option Int :=
  let cs := s.data.dropWhile isJsSpace
  let (sign, cs2) : Int × List Char :=
    match cs with
    | '-' :: r => (-1, r)
    | '+' :: r => (1, r)
    | _ => (1, cs)
  let digits := cs2.takeWhile (fun c => (digitVal radix c).isSome)
  if digits.isEmpty then none else some (sign * (natFromDigits radix digits : Int))

/-- JavaScript `parseInt(s, 10)`. -/
def jsParseInt (s : String) : Option Int := jsParseIntR 10 s

/-- Truthiness of an optional string (`undefined` and `''` are falsy). -/
def strTruthy (o : Option String) : Bool :=
  match o with
  | some s => s ≠ ""
  | none => false

/-- JavaScript `a || b` for an optional string `a` and a string default. -/
def jsOrStr (a : Option String) (b : String) : String :=
  match a with
  | some s => if s = "" then b else s
  | none => b

/-! ## Ambient host behaviour

JavaScript `Date` construction/formatting and locale- and float-dependent
formatting are host behaviour, not logic of this repository; they are passed
in explicitly and all theorems hold for every environment. -/

/-- Ambient JavaScript host functions used by the embedded code. -/
structure JsEnv where
  /-- `Date.now()` in milliseconds. -/
  nowMs : Int
  /-- `new Date().getFullYear()`. -/
  currentYear : Int
  /-- `new Date(s).getTime()`; `none` models an Invalid Date (`NaN`). -/
  dateParse : String → Option Int
  /-- `new Date(s).toISOString().split('T')[0]`; `none` models a throw. -/
  dateISO : String → Option String
  /-- `new Date().toISOString().split('T')[0]`. -/
  todayISO : String
  /-- `new Date().toISOString().replace('T', ' ').substring(0, 19)`. -/
  nowISOTime : String
  /-- `new Date(s).getFullYear().toString()`. -/
  yearStrOf : String → String
  /-- `n.toLocaleString()`. -/
  localeString : Int → String
  /-- `x.toFixed(1)`. -/
  toFixed1 : Rat → String

/-! ## `MacCMSParamsProcessor` (src/lib/maccms.params.ts) -/

/-- The raw inbound query parameters (`MacCMSParams`); every field is an
optional string exactly as delivered by `URLSearchParams`.  `by` and `end`
are Lean keywords, hence `by_` and `end_`. -/
structure MacCMSParams where
  ac : Option String := none
  t : Option String := none
  pg : Option String := none
  wd : Option String := none
  ids : Option String := none
  h : Option String := none
  limit : Option String := none
  order : Option String := none
  by_ : Option String := none
  area : Option String := none
  year : Option String := none
  start : Option String := none
  end_ : Option String := none
deriving DecidableEq, Repr

/-- The four dispatch actions. -/
inductive MacAction where
  | list
  | detail
  | search
  | category
deriving DecidableEq, Repr

/-- The five canonical order values. -/
inductive OrderKind where
  | latest
  | longest
  | shortest
  | topRated
  | mostViewed
deriving DecidableEq, Repr

/-- `filters.timeRange`. -/
structure TimeRange where
  start : Option Int := none
  end_ : Option Int := none
deriving DecidableEq, Repr

/-- `ProcessedParams['filters']`. -/
structure Filters where
  area : Option String := none
  year : Option String := none
  order : OrderKind := .latest
  timeRange : Option TimeRange := none
deriving DecidableEq, Repr

/-- `ProcessedParams`. -/
structure ProcessedParams where
  action : MacAction
  keyword : Option String := none
  page : Int
  limit : Int
  categoryId : Option Int := none
  videoIds : Option (List String) := none
  filters : Filters
deriving DecidableEq, Repr

/-- The `params.wd && params.wd.trim()` truthiness test used in
`determineAction`. -/
def wdSignal (p : MacCMSParams) : Bool :=
  match p.wd with
  | some s => jsTrim s ≠ ""
  | none => false

/-- `MacCMSParamsProcessor.determineAction`. -/
def determineAction (p : MacCMSParams) : MacAction :=
  let ac := p.ac.map jsToLower
  if ac = some "detail" ∨ strTruthy p.ids then .detail
  else if ac = some "list" ∨ ac = some "videolist" then
    if wdSignal p then .search
    else if p.t = some "0" ∨ ac = some "list" then .category
    else .list
  else if wdSignal p then .search
  else if strTruthy p.ids then .detail
  else .list

/-- `MacCMSParamsProcessor.parsePage` (default 1; `NaN` or `< 1` resets). -/
def parsePage (pageStr : Option String) : Int :=
  match pageStr with
  | none => 1
  | some s =>
    if s = "" then 1
    else
      match jsParseInt s with
      | none => 1
      | some page => if page < 1 then 1 else page

/-- `MacCMSParamsProcessor.parseLimit` (default 20; clamp to `[1, 100]`). -/
def parseLimit (limitStr : Option String) : Int :=
  match limitStr with
  | none => 20
  | some s =>
    if s = "" then 20
    else
      match jsParseInt s with
      | none => 20
      | some limit => if limit < 1 then 1 else if limit > 100 then 100 else limit

/-- Strip the HTML special characters `< > " ' &` (the `/[<>"'&]/g`
replacement). -/
def stripHtmlChars (l : List Char) : List Char :=
  l.filter (fun c => ¬(c = '<' ∨ c = '>' ∨ c = '"' ∨ c = '\'' ∨ c = '&'))

/-- Worker for the `/\s+/g` replacement; `inRun` records whether the previous
character belonged to a whitespace run (whose replacement was already
emitted). -/
def collapseWsAux (r : Char) : Bool → List Char → List Char
  | _, [] => []
  | inRun, c :: rest =>
    if isJsSpace c then
      if inRun then collapseWsAux r true rest
      else r :: collapseWsAux r true rest
    else c :: collapseWsAux r false rest

/-- The `/\s+/g → r` replacement: each maximal whitespace run becomes the
single character `r`. -/
def collapseWsWith (r : Char) (l : List Char) : List Char :=
  collapseWsAux r false l

/-- The `/\s+/g → ' '` replacement. -/
def collapseWs : List Char → List Char := collapseWsWith ' '

/-- `MacCMSParamsProcessor.parseKeyword`: blank input gives `undefined`,
otherwise trim, strip HTML specials, collapse whitespace, truncate to 100. -/
def parseKeyword (keyword : Option String) : Option String :=
  match keyword with
  | none => none
  | some s =>
    if s = "" ∨ jsTrim s = "" then none
    else some ⟨(collapseWs (stripHtmlChars (jsTrimList s.data))).take 100⟩

/-- `MacCMSParamsProcessor.parseCategoryId`. -/
def parseCategoryId (categoryStr : Option String) : Option Int :=
  match categoryStr with
  | none => none
  | some s => if s = "" then none else jsParseInt s

/-- The separator class `[,，;；\s]` used to split id lists and tags. -/
def isIdSep (c : Char) : Bool :=
  c = ',' ∨ c = '，' ∨ c = ';' ∨ c = '；' ∨ isJsSpace c

/-- Worker for `String.prototype.split(/[,，;；\s]+/)`: pieces between maximal
separator runs (empty pieces appear at a leading/trailing run, as in JS).
`inSep` records whether the previous character was a separator, `cur` is the
current piece reversed. -/
def splitSepsAux : Bool → List Char → List Char → List (List Char)
  | _, cur, [] => [cur.reverse]
  | inSep, cur, c :: rest =>
    if isIdSep c then
      if inSep then splitSepsAux true [] rest
      else cur.reverse :: splitSepsAux true [] rest
    else splitSepsAux false (c :: cur) rest

/-- `String.prototype.split(/[,，;；\s]+/)`. -/
def splitSeps (l : List Char) : List (List Char) := splitSepsAux false [] l

/-- The `/^[a-zA-Z0-9]+$/` character class. -/
def isAsciiAlnum (c : Char) : Bool :=
  ('a' ≤ c ∧ c ≤ 'z') ∨ ('A' ≤ c ∧ c ≤ 'Z') ∨ ('0' ≤ c ∧ c ≤ '9')

/-- `MacCMSParamsProcessor.parseVideoIds`: blank gives `undefined`; otherwise
split on separators, trim each token, keep non-empty alphanumeric tokens,
cap at 10. -/
def parseVideoIds (idsStr : Option String) : Option (List String) :=
  match idsStr with
  | none => none
  | some s =>
    if s = "" ∨ jsTrim s = "" then none
    else some
      (((((splitSeps s.data).map jsTrimList).filter
          (fun t => t.length > 0 ∧ t.all isAsciiAlnum)).take 10).map
        fun t => (⟨t⟩ : String))

/-- `MacCMSParamsProcessor.parseOrder`. -/
def parseOrder (order by_ : Option String) : OrderKind :=
  let orderStr := jsToLower (jsOrStr order (jsOrStr by_ ""))
  if orderStr = "time" ∨ orderStr = "addtime" ∨ orderStr = "latest" ∨
      orderStr = "desc" then .latest
  else if orderStr = "duration" ∨ orderStr = "long" ∨ orderStr = "longest" then
    .longest
  else if orderStr = "short" ∨ orderStr = "shortest" then .shortest
  else if orderStr = "score" ∨ orderStr = "rate" ∨ orderStr = "rating" ∨
      orderStr = "top" then .topRated
  else if orderStr = "hits" ∨ orderStr = "views" ∨ orderStr = "popular" then
    .mostViewed
  else .latest

/-- `MacCMSParamsProcessor.parseDate`: 10-digit strings are unix seconds,
13-digit strings unix millis, anything else goes through host `Date`
parsing. -/
def parseDate (env : JsEnv) (dateStr : String) : Option Int :=
  if dateStr.data.length = 10 ∧ dateStr.data.all (fun c => '0' ≤ c ∧ c ≤ '9') then
    some ((natFromDigits 10 dateStr.data : Int) * 1000)
  else if dateStr.data.length = 13 ∧ dateStr.data.all (fun c => '0' ≤ c ∧ c ≤ '9') then
    some (natFromDigits 10 dateStr.data : Int)
  else env.dateParse dateStr

/-- `MacCMSParamsProcessor.parseTimeRange`: a valid `h` in `(0, 8760]` wins;
otherwise `start`/`end` are parsed individually. -/
def parseTimeRange (env : JsEnv) (start end_ hours : Option String) :
    Option TimeRange :=
  let hourCase : Option TimeRange :=
    match hours with
    | some hs =>
      if hs = "" then none
      else
        match jsParseInt hs with
        | some n =>
          if 0 < n ∧ n ≤ 8760 then
            some ⟨some (env.nowMs - n * 3600000), some env.nowMs⟩
          else none
        | none => none
    | none => none
  match hourCase with
  | some tr => some tr
  | none =>
    let s : Option Int :=
      match start with
      | some st => if st = "" then none else parseDate env st
      | none => none
    let e : Option Int :=
      match end_ with
      | some en => if en = "" then none else parseDate env en
      | none => none
    if s.isSome ∨ e.isSome then some ⟨s, e⟩ else none

/-- `MacCMSParamsProcessor.parseFilters`. -/
def parseFilters (env : JsEnv) (p : MacCMSParams) : Filters :=
  let area : Option String :=
    match p.area with
    | some a => if a = "" ∨ jsTrim a = "" then none else some (jsTrim a)
    | none => none
  let year : Option String :=
    match p.year with
    | some y =>
      if y = "" ∨ jsTrim y = "" then none
      else
        match jsParseInt y with
        | some n => if 1900 ≤ n ∧ n ≤ env.currentYear then some y else none
        | none => none
    | none => none
  { area := area
    year := year
    order := parseOrder p.order p.by_
    timeRange := parseTimeRange env p.start p.end_ p.h }

/-- `MacCMSParamsProcessor.parseParams`. -/
def parseParams (env : JsEnv) (p : MacCMSParams) : ProcessedParams :=
  { action := determineAction p
    keyword := parseKeyword p.wd
    page := parsePage p.pg
    limit := parseLimit p.limit
    categoryId := parseCategoryId p.t
    videoIds := parseVideoIds p.ids
    filters := parseFilters env p }

/-- Result of `MacCMSParamsProcessor.validateParams`. -/
structure ValidationResult where
  valid : Bool
  error : Option String := none
deriving DecidableEq, Repr

/-- `!params.keyword` (absent or empty string). -/
def optStrFalsy (o : Option String) : Bool := o = none ∨ o = some ""

/-- `MacCMSParamsProcessor.validateParams`. -/
def validateParams (p : ProcessedParams) : ValidationResult :=
  if p.action = .search ∧ optStrFalsy p.keyword then
    ⟨false, some "搜索关键词不能为空"⟩
  else if p.action = .detail ∧ (p.videoIds = none ∨ p.videoIds = some []) then
    ⟨false, some "视频ID不能为空"⟩
  else if p.page < 1 then ⟨false, some "页码必须大于0"⟩
  else if p.limit < 1 ∨ p.limit > 100 then
    ⟨false, some "每页数量必须在1-100之间"⟩
  else ⟨true, none⟩

/-! ## Cache key generation (src/lib/maccms.cache.ts)

`MacCMSCacheManager.generateCacheKey` sorts the parameter keys, URL-encodes
each value, joins `key=value` segments with `&`, and base64-encodes the UTF-8
bytes of the joined string (`Buffer.from(...).toString('base64')`).  The JS
object argument is modelled as an association list with distinct keys. -/

/-- UTF-8 encoding of a Unicode code point. -/
def utf8Bytes (n : Nat) : List Nat :=
  if n < 0x80 then [n]
  else if n < 0x800 then [0xC0 + n / 64, 0x80 + n % 64]
  else if n < 0x10000 then [0xE0 + n / 4096, 0x80 + n / 64 % 64, 0x80 + n % 64]
  else [0xF0 + n / 262144, 0x80 + n / 4096 % 64, 0x80 + n / 64 % 64,
        0x80 + n % 64]

/-- Uppercase hexadecimal digit. -/
def hexDigit (d : Nat) : Char := "0123456789ABCDEF".data.getD d '0'

/-- One percent-escaped byte, `%XX`. -/
def percentByte (b : Nat) : List Char := ['%', hexDigit (b / 16), hexDigit (b % 16)]

/-- The characters `encodeURIComponent` leaves unescaped. -/
def isUriUnreserved (c : Char) : Bool :=
  ('A' ≤ c ∧ c ≤ 'Z') ∨ ('a' ≤ c ∧ c ≤ 'z') ∨ ('0' ≤ c ∧ c ≤ '9') ∨
  c = '-' ∨ c = '_' ∨ c = '.' ∨ c = '!' ∨ c = '~' ∨ c = '*' ∨ c = '\'' ∨
  c = '(' ∨ c = ')'

/-- `encodeURIComponent` on one character. -/
def encChar (c : Char) : List Char :=
  if isUriUnreserved c then [c]
  else (utf8Bytes c.toNat).foldr (fun b acc => percentByte b ++ acc) []

/-- `encodeURIComponent`. -/
def encodeURIComponent (s : String) : String :=
  ⟨s.data.foldr (fun c acc => encChar c ++ acc) []⟩

/-- Standard base64 digit alphabet. -/
def b64digit (n : Nat) : Char :=
  "ABCDEFGHIJKLMNOPQRSTUVWXYZabcdefghijklmnopqrstuvwxyz0123456789+/".data.getD
    n 'A'

/-- Base64 encoding of a byte list, with `=` padding
(`Buffer.prototype.toString('base64')`). -/
def base64Encode : List Nat → List Char
  | [] => []
  | [a] => [b64digit (a / 4), b64digit (a % 4 * 16), '=', '=']
  | [a, b] =>
    [b64digit (a / 4), b64digit (a % 4 * 16 + b / 16), b64digit (b % 16 * 4), '=']
  | a :: b :: c :: rest =>
    b64digit (a / 4) :: b64digit (a % 4 * 16 + b / 16) ::
    b64digit (b % 16 * 4 + c / 64) :: b64digit (c % 64) :: base64Encode rest

/-- UTF-8 bytes of a character list (`Buffer.from(s)`). -/
def utf8ByteList (l : List Char) : List Nat :=
  l.foldr (fun c acc => utf8Bytes c.toNat ++ acc) []

/-- `Buffer.from(s).toString('base64')`. -/
def bufferBase64 (s : String) : String := ⟨base64Encode (utf8ByteList s.data)⟩

/-- One `key=encodeURIComponent(String(params[key]))` segment. -/
def cacheKeySegment (params : List (String × String)) (key : String) : String :=
  key ++ "=" ++ encodeURIComponent ((params.lookup key).getD "")

/-- `MacCMSCacheManager.generateCacheKey` (`prefix` is a Lean keyword, hence
`pfx`). -/
def generateCacheKey (pfx : String) (params : List (String × String)) : String :=
  let sortedKeys := (params.map Prod.fst).mergeSort (fun a b => decide (a ≤ b))
  let sortedParams := String.intercalate "&" (sortedKeys.map (cacheKeySegment params))
  "maccms:" ++ pfx ++ ":" ++ bufferBase64 sortedParams

/-! ## Error taxonomy and retry handler (src/lib/maccms.cache.ts) -/

/-- `ErrorType`. -/
inductive ErrorType where
  | validation
  | apiError
  | networkError
  | rateLimit
  | timeout
  | unknown
deriving DecidableEq, Repr

/-- The observable shape of a thrown JavaScript error, as far as
`MacCMSRetryHandler.shouldNotRetry` inspects it: `error.response?.status`
and `error.type`. -/
structure JsError where
  status : Option Int := none
  etype : Option ErrorType := none
deriving DecidableEq, Repr

/-- `MacCMSRetryHandler.shouldNotRetry`: 4xx responses and
Validation-classified errors are not retried. -/
def shouldNotRetry (e : JsError) : Bool :=
  (match e.status with
   | some s => decide (400 ≤ s ∧ s < 500)
   | none => false) ||
  decide (e.etype = some .validation)

/-- Loop body of `MacCMSRetryHandler.withRetry`.  The operation is modelled
as a map from the attempt number (1-based) to that invocation's outcome; the
returned `Nat` is the number of invocations performed.  The `fuel` argument
only forces termination: it starts at `maxRetries`, which the loop bound
`attempt ≤ maxRetries` never exceeds. -/
def retryGo (op : Nat → Except JsError α) (maxRetries : Nat) :
    Nat → Nat → Option (Except JsError α × Nat)
  | _, 0 => none
  | attempt, fuel + 1 =>
    match op attempt with
    | .ok a => some (.ok a, attempt)
    | .error e =>
      if attempt = maxRetries then some (.error e, attempt)
      else if shouldNotRetry e then some (.error e, attempt)
      else retryGo op maxRetries (attempt + 1) fuel

/-- `MacCMSRetryHandler.withRetry` (the delays between attempts do not affect
the returned value and are not modelled).  `none` corresponds to the trailing
`throw lastError` with `lastError` still undefined, reachable only when
`maxRetries = 0`. -/
def withRetry (op : Nat → Except JsError α) (maxRetries : Nat := 3) :
    Option (Except JsError α × Nat) :=
  retryGo op maxRetries 1 maxRetries

/-- `MacCMSErrorHandler.createError` applied by `handleValidationError`. -/
structure ErrorDetail where
  etype : ErrorType
  message : String
  details : Option String := none
  timestamp : Int
deriving DecidableEq, Repr

/-- `MacCMSErrorHandler.handleValidationError`. -/
def handleValidationError (env : JsEnv) (message : String) : ErrorDetail :=
  { etype := .validation, message := message, timestamp := env.nowMs }

/-! ## Data transformer (src/lib/maccms.transformer.ts) -/

/-- A thumbnail entry of the upstream provider. -/
structure EpornerThumb where
  src : String
  width : Int
  height : Int
deriving DecidableEq, Repr

/-- `EpornerVideo`.  `default_thumb`, `views` and `rate` are accessed with
nullish-tolerant operators in the source, so they are modelled as `Option`. -/
structure EpornerVideo where
  id : String
  title : String
  keywords : String
  views : Option Int := none
  rate : Option Rat := none
  url : String
  embed : String
  added : String
  length_sec : Int
  default_thumb : Option EpornerThumb := none
  thumbs : List EpornerThumb := []

/-- `EpornerSearchResponse`. -/
structure EpornerSearchResponse where
  total_count : Int
  current_page : Int
  total_pages : Int
  videos : List EpornerVideo

/-- `MacCMSVideo`: the full fixed-schema legacy record. -/
structure MacCMSVideo where
  vod_id : Int
  vod_name : String
  vod_sub : String
  vod_en : String
  vod_status : Int
  vod_letter : String
  vod_color : String
  vod_tag : String
  vod_class : String
  vod_pic : String
  vod_pic_thumb : String
  vod_pic_slide : String
  vod_pic_screenshot : String
  vod_actor : String
  vod_director : String
  vod_writer : String
  vod_behind : String
  vod_blurb : String
  vod_remarks : String
  vod_pubdate : String
  vod_total : Int
  vod_serial : String
  vod_tv : String
  vod_weekday : String
  vod_area : String
  vod_lang : String
  vod_year : String
  vod_version : String
  vod_state : String
  vod_author : String
  vod_jumpurl : String
  vod_tpl : String
  vod_tpl_play : String
  vod_tpl_down : String
  vod_isend : Int
  vod_lock : Int
  vod_level : Int
  vod_copyright : Int
  vod_points : Int
  vod_points_play : Int
  vod_points_down : Int
  vod_hits : Int
  vod_hits_day : Int
  vod_hits_week : Int
  vod_hits_month : Int
  vod_duration : String
  vod_up : Int
  vod_down : Int
  vod_score : String
  vod_score_all : Int
  vod_score_num : Int
  vod_time : String
  vod_time_add : String
  vod_time_hits : String
  vod_time_make : String
  vod_trysee : Int
  vod_douban_id : Int
  vod_douban_score : String
  vod_reurl : String
  vod_rel_vod : String
  vod_rel_art : String
  vod_pwd : String
  vod_pwd_url : String
  vod_pwd_play : String
  vod_pwd_play_url : String
  vod_pwd_down : String
  vod_pwd_down_url : String
  vod_content : String
  vod_play_from : String
  vod_play_server : String
  vod_play_note : String
  vod_play_url : String
  vod_down_from : String
  vod_down_server : String
  vod_down_note : String
  vod_down_url : String
  vod_plot : Int
  vod_plot_name : String
  vod_plot_detail : String
  type_id : Int
  type_name : String
  group_id : Int

/-- `MacCMSCategory`. -/
structure MacCMSCategory where
  type_id : Int
  type_name : String
  type_en : String
  type_sort : Int
  type_mid : Int
  type_pid : Int
  type_status : Int
deriving DecidableEq, Repr

/-- `MacCMSResponse` (success envelope). -/
structure MacCMSResponse where
  code : Int
  msg : String
  page : Int
  pagecount : Int
  limit : Int
  total : Int
  list : List MacCMSVideo

/-- The legacy error envelope built by
`MacCMSErrorHandler.createErrorResponse`. -/
structure MacCMSErrorResponse where
  code : Int
  msg : String
  page : Int
  pagecount : Int
  limit : Int
  total : Int
  list : List MacCMSVideo
  errorType : ErrorType
  errorTimestamp : Int
  errorDetails : Option String := none

/-- `MacCMSErrorHandler.createErrorResponse`. -/
def createErrorResponse (e : ErrorDetail) : MacCMSErrorResponse :=
  { code := 0, msg := e.message, page := 1, pagecount := 0, limit := 0,
    total := 0, list := [], errorType := e.etype, errorTimestamp := e.timestamp,
    errorDetails := e.details }

/-- `MacCMSTransformer.cleanTitle`: strip specials, collapse whitespace, trim,
truncate to 100. -/
def cleanTitle (title : String) : String :=
  ⟨(jsTrimList (collapseWs (stripHtmlChars title.data))).take 100⟩

/-- `MacCMSTransformer.getFirstLetter`. -/
def getFirstLetter (title : String) : String :=
  match title.data with
  | [] => "#"
  | c :: _ =>
    let u := c.toUpper
    if 'A' ≤ u ∧ u ≤ 'Z' then ⟨[u]⟩ else "#"

/-- `MacCMSTransformer.generateEnglishName`: lowercase, keep `[a-z0-9\s]`,
turn whitespace runs into hyphens. -/
def generateEnglishName (title : String) : String :=
  ⟨collapseWsWith '-'
    ((title.data.map Char.toLower).filter
      (fun c => ('a' ≤ c ∧ c ≤ 'z') ∨ ('0' ≤ c ∧ c ≤ '9') ∨ isJsSpace c))⟩

/-- `MacCMSTransformer.processTags`. -/
def processTags (keywords : String) : String :=
  if keywords = "" then ""
  else
    String.intercalate ","
      ((((splitSeps keywords.data).filter
          (fun t => (jsTrimList t).length > 0)).take 10).map
        fun t => (⟨jsTrimList t⟩ : String))

/-- `MacCMSTransformer.formatDate`. -/
def formatDate (env : JsEnv) (dateString : String) : String :=
  (env.dateISO dateString).getD env.todayISO

/-- Render a number on two digits (`padStart(2, '0')`). -/
def pad2 (n : Nat) : String := if n < 10 then "0" ++ toString n else toString n

/-- `MacCMSTransformer.formatDuration`. -/
def formatDuration (seconds : Int) : String :=
  if seconds ≤ 0 then "未知"
  else
    let s := seconds.toNat
    let hours := s / 3600
    let minutes := s % 3600 / 60
    let remainingSeconds := s % 60
    if hours > 0 then
      toString hours ++ ":" ++ pad2 minutes ++ ":" ++ pad2 remainingSeconds
    else
      toString minutes ++ ":" ++ pad2 remainingSeconds

/-- `MacCMSTransformer.getThumbnailUrl`. -/
def getThumbnailUrl (v : EpornerVideo) : String :=
  let fromThumbs : String :=
    match v.thumbs with
    | [] => ""
    | t :: ts =>
      (ts.foldl
        (fun prev current =>
          if current.width * current.height > prev.width * prev.height then
            current
          else prev)
        t).src
  match v.default_thumb with
  | some th => if th.src ≠ "" then th.src else fromThumbs
  | none => fromThumbs

/-- `MacCMSTransformer.generateScreenshots`. -/
def generateScreenshots (v : EpornerVideo) : String :=
  let start : List String :=
    match v.default_thumb with
    | some th => if th.src ≠ "" then [th.src] else []
    | none => []
  let shots :=
    v.thumbs.foldl
      (fun acc th =>
        if th.src ≠ "" ∧ th.src ∉ acc then acc ++ [th.src] else acc)
      start
  String.intercalate "||" (shots.take 5)

/-- `MacCMSTransformer.generatePlayUrl`. -/
def generatePlayUrl (v : EpornerVideo) : String :=
  "第1集" ++ "$" ++ (if v.embed ≠ "" then v.embed else if v.url ≠ "" then v.url else "")

/-- `video.rate || 0`. -/
def rateOr0 (v : EpornerVideo) : Rat :=
  match v.rate with
  | some r => r
  | none => 0

/-- `MacCMSTransformer.generateContent`. -/
def generateContent (env : JsEnv) (v : EpornerVideo) : String :=
  let viewsStr : String :=
    match v.views with
    | some n => let s := env.localeString n; if s = "" then "未知" else s
    | none => "未知"
  let parts : List String :=
    ["<p><strong>视频标题：</strong>" ++ v.title ++ "</p>"] ++
    (if v.keywords ≠ "" then
      ["<p><strong>关键词：</strong>" ++ v.keywords ++ "</p>"]
     else []) ++
    ["<p><strong>时长：</strong>" ++ formatDuration v.length_sec ++ "</p>",
     "<p><strong>观看次数：</strong>" ++ viewsStr ++ "</p>"] ++
    (match v.rate with
     | some r =>
       if r ≠ 0 then
         ["<p><strong>评分：</strong>" ++ env.toFixed1 r ++ "/10</p>"]
       else []
     | none => []) ++
    ["<p><strong>添加时间：</strong>" ++ formatDate env v.added ++ "</p>",
     "<p><strong>来源：</strong>Eporner</p>"]
  String.intercalate "\n" parts

/-- `MacCMSTransformer.transformVideo`. -/
def transformVideo (env : JsEnv) (video : EpornerVideo) (vodId : Int) :
    MacCMSVideo :=
  let currentTime := env.nowISOTime
  let addedDate := formatDate env video.added
  let duration := formatDuration video.length_sec
  let thumbnail := getThumbnailUrl video
  let playUrl := generatePlayUrl video
  let title := cleanTitle video.title
  let firstLetter := getFirstLetter title
  let tags := processTags video.keywords
  let content := generateContent env video
  { vod_id := vodId
    vod_name := title
    vod_sub := ""
    vod_en := generateEnglishName title
    vod_status := 1
    vod_letter := firstLetter
    vod_color := ""
    vod_tag := tags
    vod_class := ""
    vod_pic := thumbnail
    vod_pic_thumb := thumbnail
    vod_pic_slide := thumbnail
    vod_pic_screenshot := generateScreenshots video
    vod_actor := "未知"
    vod_director := "未知"
    vod_writer := ""
    vod_behind := ""
    vod_blurb := title
    vod_remarks := "时长:" ++ duration
    vod_pubdate := addedDate
    vod_total := 1
    vod_serial := "1"
    vod_tv := ""
    vod_weekday := ""
    vod_area := "欧美"
    vod_lang := "英语"
    vod_year := env.yearStrOf video.added
    vod_version := ""
    vod_state := "完结"
    vod_author := "Eporner"
    vod_jumpurl := ""
    vod_tpl := ""
    vod_tpl_play := ""
    vod_tpl_down := ""
    vod_isend := 1
    vod_lock := 0
    vod_level := 0
    vod_copyright := 0
    vod_points := 0
    vod_points_play := 0
    vod_points_down := 0
    vod_hits := video.views.getD 0
    vod_hits_day := 0
    vod_hits_week := 0
    vod_hits_month := 0
    vod_duration := duration
    vod_up := Rat.floor (rateOr0 video * 10)
    vod_down := 0
    vod_score := env.toFixed1 (rateOr0 video)
    vod_score_all := Rat.floor (rateOr0 video * 10)
    vod_score_num := 1
    vod_time := currentTime
    vod_time_add := addedDate ++ " 00:00:00"
    vod_time_hits := currentTime
    vod_time_make := currentTime
    vod_trysee := 0
    vod_douban_id := 0
    vod_douban_score := ""
    vod_reurl := ""
    vod_rel_vod := ""
    vod_rel_art := ""
    vod_pwd := ""
    vod_pwd_url := ""
    vod_pwd_play := ""
    vod_pwd_play_url := ""
    vod_pwd_down := ""
    vod_pwd_down_url := ""
    vod_content := content
    vod_play_from := "Eporner"
    vod_play_server := "no"
    vod_play_note := ""
    vod_play_url := playUrl
    vod_down_from := ""
    vod_down_server := ""
    vod_down_note := ""
    vod_down_url := ""
    vod_plot := 0
    vod_plot_name := ""
    vod_plot_detail := ""
    type_id := 3
    type_name := "伦理片"
    group_id := 0 }

/-- JavaScript `Math.ceil(a / b)` for integers with `b > 0`. -/
def jsMathCeilDiv (a b : Int) : Int := -((-a).ediv b)

/-- `MacCMSTransformer.transformSearchResponse`. -/
def transformSearchResponse (env : JsEnv) (epornerResponse : EpornerSearchResponse)
    (page : Int := 1) (limit : Int := 20) : MacCMSResponse :=
  let videos := epornerResponse.videos
  let transformedVideos :=
    videos.enum.map fun iv =>
      transformVideo env iv.2 ((page - 1) * limit + (iv.1 : Int) + 1)
  { code := 1
    msg := "数据列表"
    page := if epornerResponse.current_page ≠ 0 then epornerResponse.current_page else page
    pagecount :=
      if epornerResponse.total_pages ≠ 0 then epornerResponse.total_pages
      else jsMathCeilDiv epornerResponse.total_count limit
    limit := limit
    total :=
      if epornerResponse.total_count ≠ 0 then epornerResponse.total_count
      else (videos.length : Int)
    list := transformedVideos }

/-- `MacCMSTransformer.generateCategories`: the single fixed category. -/
def generateCategories : List MacCMSCategory :=
  [{ type_id := 3, type_name := "伦理片", type_en := "ethics", type_sort := 3,
     type_mid := 1, type_pid := 0, type_status := 1 }]

/-! ## Route handlers (src/app/api/maccms/route.ts) -/

/-- The category envelope (`categoryData` of `handleCategoryList`): it has a
`class` list instead of a `list`. -/
structure CategoryResponse where
  code : Int
  msg : String
  page : Int
  pagecount : Int
  limit : Int
  total : Int
  class_ : List MacCMSCategory

/-- `handleCategoryList` (the `try` body is pure and cannot throw). -/
def handleCategoryList : CategoryResponse :=
  let categories := generateCategories
  { code := 1, msg := "数据列表", page := 1, pagecount := 1,
    limit := (categories.length : Int), total := (categories.length : Int),
    class_ := categories }

/-- `parseInt(id, 36) || 1`: the numeric id assigned to a detail record. -/
def detailVodId (id : String) : Int :=
  match jsParseIntR 36 id with
  | none => 1
  | some n => if n = 0 then 1 else n

/-- Outcome of `handleVideoDetail`: a success envelope or an error envelope,
each tagged with the cache category it is served under. -/
inductive DetailResult where
  | ok (resp : MacCMSResponse) (cacheType : String)
  | err (resp : MacCMSErrorResponse) (cacheType : String)

/-- `handleVideoDetail`.  `fetch id` is the outcome of
`withRetry(() => epornerClient.getVideoById(id), 2, 500)` for that id:
`some` a video on success, `none` once the retry budget is exhausted (the
failing id is logged and skipped). -/
def handleVideoDetail (env : JsEnv) (fetch : String → Option EpornerVideo)
    (params : ProcessedParams) : DetailResult :=
  let idsOk : Bool :=
    match params.videoIds with
    | none => false
    | some ids => ids ≠ []
  if ¬idsOk then
    .err (createErrorResponse (handleValidationError env "请提供视频ID")) "error"
  else
    let ids := (params.videoIds.getD []).take 10
    let videoList :=
      ids.filterMap fun id =>
        (fetch id).map fun detail => transformVideo env detail (detailVodId id)
    if videoList.length = 0 then
      .err (createErrorResponse (handleValidationError env "未找到有效的视频数据"))
        "error"
    else
      .ok
        { code := 1, msg := "数据列表", page := 1, pagecount := 1,
          limit := (videoList.length : Int), total := (videoList.length : Int),
          list := videoList }
        "detail"

/-! ## Helper lemmas -/

theorem jsParseInt_empty : jsParseInt "" = none := rfl

/-- Bounds of `parseLimit`: always in `[1, 100]`. -/
theorem parseLimit_bounds (ls : Option String) :
    1 ≤ parseLimit ls ∧ parseLimit ls ≤ 100 := by
  cases ls with
  | none => simp [parseLimit]
  | some s =>
    by_cases hs : s = ""
    · simp [parseLimit, hs]
    · rcases h : jsParseInt s with _ | n
      · simp [parseLimit, hs, h]
      · simp only [parseLimit, hs, if_false, h]
        split_ifs <;> omega

/-- `parsePage` is always at least 1. -/
theorem parsePage_pos (ps : Option String) : 1 ≤ parsePage ps := by
  cases ps with
  | none => simp [parsePage]
  | some s =>
    by_cases hs : s = ""
    · simp [parsePage, hs]
    · rcases h : jsParseInt s with _ | n
      · simp [parsePage, hs, h]
      · simp only [parsePage, hs, if_false, h]
        split_ifs <;> omega

/-! ## Claim C5 -/

/-- The limit policy exactly as the claim words it: parsed integer below 1
gives 1, above 100 gives 100, non-numeric or absent gives the default 20. -/
def claimedLimit (limitStr : Option String) : Int :=
  match limitStr with
  | none => 20
  | some s =>
    match jsParseInt s with
    | none => 20
    | some n => if n < 1 then 1 else if n > 100 then 100 else n

/-- The page policy exactly as the claim words it: non-numeric, absent, or
`≤ 0` gives 1, any other parsed integer is kept unchanged. -/
def claimedPage (pageStr : Option String) : Int :=
  match pageStr with
  | none => 1
  | some s =>
    match jsParseInt s with
    | none => 1
    | some n => if n ≤ 0 then 1 else n

/-- Claim C5 (confirmed): for every raw limit input the processed limit lies
in `[1, 100]` and follows the claimed clamping cases, and for every raw pg
input the processed page is `≥ 1` and follows the claimed cases. -/
theorem c5_parseLimit_parsePage_spec (ls ps : Option String) :
    parseLimit ls = claimedLimit ls ∧
    1 ≤ parseLimit ls ∧ parseLimit ls ≤ 100 ∧
    parsePage ps = claimedPage ps ∧
    1 ≤ parsePage ps := by
  refine ⟨?_, (parseLimit_bounds ls).1, (parseLimit_bounds ls).2, ?_,
    parsePage_pos ps⟩
  · cases ls with
    | none => rfl
    | some s =>
      by_cases hs : s = ""
      · subst hs
        simp [parseLimit, claimedLimit, jsParseInt_empty]
      · simp only [parseLimit, claimedLimit, hs, if_false]
  · cases ps with
    | none => rfl
    | some s =>
      by_cases hs : s = ""
      · subst hs
        simp [parsePage, claimedPage, jsParseInt_empty]
      · rcases h : jsParseInt s with _ | n
        · simp [parsePage, claimedPage, hs, h]
        · simp only [parsePage, claimedPage, hs, if_false, h]
          split_ifs <;> omega

/-! ## Claim C4 -/

/-- Characters produced by `collapseWsAux r` are either `r` or characters of
the input. -/
theorem mem_collapseWsAux (r : Char) :
    ∀ (l : List Char) (b : Bool), ∀ c ∈ collapseWsAux r b l, c = r ∨ c ∈ l := by
  intro l
  induction l with
  | nil => intro b c hc; simp [collapseWsAux] at hc
  | cons c rest ih =>
    intro b x hx
    by_cases hsp : isJsSpace c
    · cases b with
      | true =>
        simp only [collapseWsAux, hsp, if_true] at hx
        rcases ih true x hx with h | h
        · exact Or.inl h
        · exact Or.inr (List.mem_cons_of_mem _ h)
      | false =>
        simp only [collapseWsAux, hsp, if_true] at hx
        rcases List.mem_cons.mp hx with rfl | hx'
        · exact Or.inl rfl
        · rcases ih true x hx' with h | h
          · exact Or.inl h
          · exact Or.inr (List.mem_cons_of_mem _ h)
    · simp only [collapseWsAux, hsp, if_false] at hx
      rcases List.mem_cons.mp hx with rfl | hx'
      · exact Or.inr (List.mem_cons_self _ _)
      · rcases ih false x hx' with h | h
        · exact Or.inl h
        · exact Or.inr (List.mem_cons_of_mem _ h)

/-- Characters produced by `collapseWsWith r` are either `r` or characters of
the input. -/
theorem mem_collapseWsWith (r : Char) :
    ∀ (l : List Char), ∀ c ∈ collapseWsWith r l, c = r ∨ c ∈ l :=
  fun l => mem_collapseWsAux r l false

/-- Claim C4, counterexample: the input `"&"` is non-blank before cleaning and
empty after cleaning, yet `parseKeyword` returns the empty string, not
`undefined`. -/
theorem c4_counterexample :
    parseKeyword (some "&") = some "" ∧ parseKeyword (some "&") ≠ none := by
  constructor
  · decide
  · decide

/-- Claim C4 as amended (the keyword parser trims, strips `< > " ' &`,
collapses whitespace runs, truncates to 100 characters, and the result never
contains a stripped character; but it returns `undefined` only when the input
is absent or blank *before* cleaning — an input that is non-blank before
cleaning and empty after cleaning yields the empty string). -/
theorem c4_parseKeyword_spec (s : String) :
    parseKeyword none = none ∧
    (jsTrim s = "" → parseKeyword (some s) = none) ∧
    (jsTrim s ≠ "" →
      parseKeyword (some s) =
        some ⟨(collapseWs (stripHtmlChars (jsTrimList s.data))).take 100⟩) ∧
    (∀ k, parseKeyword (some s) = some k →
      k.length ≤ 100 ∧
      ∀ c ∈ k.data, ¬(c = '<' ∨ c = '>' ∨ c = '"' ∨ c = '\'' ∨ c = '&')) := by
  have hempty : jsTrim "" = "" := rfl
  refine ⟨rfl, ?_, ?_, ?_⟩
  · intro h
    simp only [parseKeyword]
    rw [if_pos (Or.inr h)]
  · intro h
    simp only [parseKeyword]
    rw [if_neg]
    push_neg
    refine ⟨?_, h⟩
    intro hs
    exact h (hs ▸ hempty)
  · intro k hk
    simp only [parseKeyword] at hk
    by_cases hcond : s = "" ∨ jsTrim s = ""
    · rw [if_pos hcond] at hk
      exact Option.noConfusion hk
    · rw [if_neg hcond] at hk
      have hk' := Option.some.inj hk
      subst hk'
      constructor
      · show (List.take 100 _).length ≤ 100
        simp
      · intro c hc hbad
        have hc' : c ∈ (collapseWs (stripHtmlChars (jsTrimList s.data))).take 100 := hc
        have hmem : c ∈ collapseWs (stripHtmlChars (jsTrimList s.data)) :=
          (List.take_sublist _ _).mem hc'
        rcases mem_collapseWsWith ' ' _ c hmem with rfl | hmem'
        · rcases hbad with h | h | h | h | h <;> exact absurd h (by decide)
        · have hf := List.of_mem_filter hmem'
          rw [decide_eq_true_eq] at hf
          exact hf hbad

/-- Claim C4 witness: the keyword `" a  b "` is trimmed and its whitespace
run collapsed. -/
theorem c4_witness : parseKeyword (some " a  b ") = some "a b" := by
  have h := (c4_parseKeyword_spec " a  b ").2.2.1 (by decide)
  rw [h]
  decide

/-! ## Claim C1 -/

/-- Claim C1, counterexample: with `ac=list`, no keyword, no ids and `t="5"`
(not `"0"`), `determineAction` resolves to `category`, not `list` — the
`ac === 'list'` disjunct of the category test fires regardless of `t`. -/
theorem c1_counterexample :
    determineAction { ac := some "list", t := some "5" } = .category ∧
    determineAction { ac := some "list", t := some "5" } ≠ .list := by
  constructor
  · rfl
  · intro h
    rw [show determineAction { ac := some "list", t := some "5" } = .category
        from rfl] at h
    exact MacAction.noConfusion h

/-- Claim C1 as amended: with a blank keyword and no id-list signal, an
explicit `videolist` action with `t ≠ "0"` resolves to `list`, while the
`category` action is chosen exactly when the lowercased action is `list`
(regardless of `t`) or when it is `videolist` with `t = "0"`. -/
theorem c1_determineAction_spec (p : MacCMSParams)
    (hwd : wdSignal p = false) (hids : strTruthy p.ids = false) :
    (p.ac.map jsToLower = some "videolist" → p.t ≠ some "0" →
      determineAction p = .list) ∧
    (p.ac.map jsToLower = some "list" ∨
        (p.ac.map jsToLower = some "videolist" ∧ p.t = some "0") →
      determineAction p = .category) := by
  constructor
  · intro hac ht
    unfold determineAction
    rw [if_neg, if_pos (Or.inr hac), if_neg (by simp [hwd]), if_neg]
    · rintro (h | h)
      · exact ht h
      · rw [hac] at h
        exact absurd (Option.some.inj h) (by decide)
    · rintro (h | h)
      · rw [hac] at h
        exact absurd (Option.some.inj h) (by decide)
      · simp [hids] at h
  · intro hcase
    unfold determineAction
    have hacne : ¬(p.ac.map jsToLower = some "detail" ∨ strTruthy p.ids = true) := by
      rintro (h | h)
      · rcases hcase with hc | ⟨hc, _⟩ <;> rw [hc] at h <;>
          exact absurd (Option.some.inj h) (by decide)
      · simp [hids] at h
    rw [if_neg hacne, if_pos, if_neg (by simp [hwd]), if_pos]
    · rcases hcase with hc | ⟨_, hc⟩
      · exact Or.inr hc
      · exact Or.inl hc
    · rcases hcase with hc | ⟨hc, _⟩
      · exact Or.inl hc
      · exact Or.inr hc

/-- Claim C1 witness: `ac=videolist` with `t="5"` resolves to `list`, and
`ac=list` with `t="5"` resolves to `category`. -/
theorem c1_witness :
    determineAction { ac := some "videolist", t := some "5" } = .list ∧
    determineAction { ac := some "list", t := some "5" } = .category := by
  constructor
  · exact (c1_determineAction_spec { ac := some "videolist", t := some "5" }
      rfl rfl).1 rfl (by decide)
  · exact (c1_determineAction_spec { ac := some "list", t := some "5" }
      rfl rfl).2 (Or.inl rfl)

/-! ## Claim C2 -/

/-- Claim C2, failing input: a query with `ac=category` alone does not reach
the category handler at all — `determineAction` recognizes only
`detail`/`list`/`videolist` action codes, so `ac=category` falls through to
the `list` action (and a `wd` or `ids` parameter overrides it to
`search`/`detail`).  The category handler itself would return the fixed
single-record class list with `code = 1`, which is what the repository's own
integration test expects of `ac=category`. -/
theorem c2_category_code_eval :
    determineAction { ac := some "category" } = .list ∧
    determineAction { ac := some "category", wd := some "x" } = .search ∧
    determineAction { ac := some "category", ids := some "1" } = .detail ∧
    handleCategoryList.code = 1 ∧
    handleCategoryList.class_ = generateCategories ∧
    generateCategories.length = 1 := by
  exact ⟨rfl, rfl, rfl, rfl, rfl, rfl⟩

/-! ## Claim C10 -/

/-- A concrete ambient environment, used to instantiate witnesses. -/
def env0 : JsEnv :=
  { nowMs := 0
    currentYear := 2026
    dateParse := fun _ => none
    dateISO := fun _ => none
    todayISO := "1970-01-01"
    nowISOTime := "1970-01-01 00:00:00"
    yearStrOf := fun _ => "1970"
    localeString := fun _ => "0"
    toFixed1 := fun _ => "0.0" }

/-- Claim C10 (confirmed): `parseVideoIds` returns `undefined` exactly on
absent/blank input; otherwise at most 10 tokens, each a non-empty ASCII
alphanumeric string, in input order (a sublist of the trimmed split pieces);
and a non-blank ids string with no valid token yields `some []`, which forces
the `detail` action through the id-list signal and then fails validation with
the empty-video-ID error. -/
theorem c10_parseVideoIds_spec (env : JsEnv) (s : String) (p : MacCMSParams)
    (hps : p.ids = some s) (hnb : jsTrim s ≠ "") :
    parseVideoIds none = none ∧
    (∀ s', jsTrim s' = "" → parseVideoIds (some s') = none) ∧
    (∃ l, parseVideoIds (some s) = some l ∧
      l.length ≤ 10 ∧
      (∀ tok ∈ l, tok ≠ "" ∧ tok.data.all isAsciiAlnum) ∧
      (l.map String.data).Sublist ((splitSeps s.data).map jsTrimList)) ∧
    ((∀ t ∈ (splitSeps s.data).map jsTrimList,
        ¬(t.length > 0 ∧ t.all isAsciiAlnum = true)) →
      parseVideoIds (some s) = some [] ∧
      determineAction p = .detail ∧
      validateParams (parseParams env p) = ⟨false, some "视频ID不能为空"⟩) := by
  have hs0 : s ≠ "" := by
    intro h
    subst h
    exact hnb rfl
  have hunf : parseVideoIds (some s) =
      some (((((splitSeps s.data).map jsTrimList).filter
          (fun t => t.length > 0 ∧ t.all isAsciiAlnum)).take 10).map
        fun t => (⟨t⟩ : String)) := by
    simp only [parseVideoIds]
    rw [if_neg]
    push_neg
    exact ⟨hs0, hnb⟩
  refine ⟨rfl, ?_, ?_, ?_⟩
  · intro s' h
    simp only [parseVideoIds]
    rw [if_pos (Or.inr h)]
  · refine ⟨_, hunf, ?_, ?_, ?_⟩
    · calc (((((splitSeps s.data).map jsTrimList).filter _).take 10).map
            fun t => (⟨t⟩ : String)).length
          = ((((splitSeps s.data).map jsTrimList).filter _).take 10).length :=
            List.length_map _ _
        _ ≤ 10 := List.length_take_le _ _
    · intro tok htok
      rcases List.mem_map.mp htok with ⟨t, ht, rfl⟩
      have htf : t ∈ ((splitSeps s.data).map jsTrimList).filter
          (fun t => t.length > 0 ∧ t.all isAsciiAlnum) :=
        (List.take_sublist _ _).mem ht
      have hp := List.of_mem_filter htf
      rw [decide_eq_true_eq] at hp
      refine ⟨?_, ?_⟩
      · intro hemp
        have : t = [] := congrArg String.data hemp
        rw [this] at hp
        simp at hp
      · exact hp.2
    · have hmapmap :
          ((((((splitSeps s.data).map jsTrimList).filter
              (fun t => t.length > 0 ∧ t.all isAsciiAlnum)).take 10).map
            fun t => (⟨t⟩ : String)).map String.data) =
          ((((splitSeps s.data).map jsTrimList).filter
              (fun t => t.length > 0 ∧ t.all isAsciiAlnum)).take 10) := by
        rw [List.map_map]
        exact List.map_id _
      rw [hmapmap]
      exact (List.take_sublist _ _).trans (List.filter_sublist _)
  · intro hnone
    have hfil : (((splitSeps s.data).map jsTrimList).filter
        (fun t => t.length > 0 ∧ t.all isAsciiAlnum)) = [] := by
      rw [List.filter_eq_nil_iff]
      intro t ht
      rw [decide_eq_true_eq]
      exact hnone t ht
    have hids : parseVideoIds (some s) = some [] := by
      rw [hunf, hfil]
      rfl
    have hsig : strTruthy p.ids = true := by
      rw [hps]
      simp [strTruthy, hs0]
    have hdet : determineAction p = .detail := by
      simp only [determineAction]
      rw [if_pos (Or.inr hsig)]
    refine ⟨hids, hdet, ?_⟩
    have hvid : parseVideoIds p.ids = some [] := by rw [hps]; exact hids
    simp only [validateParams, parseParams, hdet, hvid]
    rw [if_neg (by simp), if_pos (by simp)]

/-- Claim C10 witness: the non-blank ids string `"!!!"` contains no valid
token, yields the empty id list, forces the `detail` action, and fails
validation with the empty-video-ID error. -/
theorem c10_witness :
    parseVideoIds (some "!!!") = some [] ∧
    determineAction { ids := some "!!!" } = MacAction.detail ∧
    validateParams (parseParams env0 { ids := some "!!!" }) =
      ⟨false, some "视频ID不能为空"⟩ :=
  (c10_parseVideoIds_spec env0 "!!!" { ids := some "!!!" } rfl (by decide)).2.2.2
    (by decide)

/-! ## Claim C9 -/

/-- Claim C9 (confirmed): every parser-produced intent satisfies
`page ≥ 1` and `1 ≤ limit ≤ 100`, so `validateParams` applied to any
`parseParams` output can only succeed or fail through the search-keyword or
detail-video-ID checks — the page and limit failure branches are
unreachable. -/
theorem c9_validateParams_parseParams (env : JsEnv) (p : MacCMSParams) :
    1 ≤ (parseParams env p).page ∧
    1 ≤ (parseParams env p).limit ∧ (parseParams env p).limit ≤ 100 ∧
    (validateParams (parseParams env p) = ⟨true, none⟩ ∨
     validateParams (parseParams env p) = ⟨false, some "搜索关键词不能为空"⟩ ∨
     validateParams (parseParams env p) = ⟨false, some "视频ID不能为空"⟩) := by
  have hpage := parsePage_pos p.pg
  have hlim := parseLimit_bounds p.limit
  refine ⟨hpage, hlim.1, hlim.2, ?_⟩
  simp only [validateParams, parseParams]
  split_ifs with h1 h2 h3 h4
  · exact Or.inr (Or.inl rfl)
  · exact Or.inr (Or.inr rfl)
  · exact absurd h3 (by omega)
  · rcases h4 with h | h <;> exact absurd h (by omega)
  · exact Or.inl rfl

/-! ## Claim C6 -/

/-- Claim C6 (confirmed): with `maxAttempts = 3`, an operation failing
retryably on its first two invocations and succeeding on the third returns
the success result after exactly 3 invocations; an operation whose first
failure is Validation-classified or a 4xx-style client error is invoked
exactly once and its error is rethrown; and when all 3 attempts fail
retryably, the last observed error is thrown after exactly 3 invocations. -/
theorem c6_withRetry_spec {α : Type} (op : Nat → Except JsError α) :
    (∀ e1 e2 a, op 1 = .error e1 → op 2 = .error e2 → op 3 = .ok a →
      shouldNotRetry e1 = false → shouldNotRetry e2 = false →
      withRetry op 3 = some (.ok a, 3)) ∧
    (∀ e, op 1 = .error e →
      (e.etype = some .validation ∨
        ∃ st, e.status = some st ∧ 400 ≤ st ∧ st < 500) →
      withRetry op 3 = some (.error e, 1)) ∧
    (∀ e1 e2 e3, op 1 = .error e1 → op 2 = .error e2 → op 3 = .error e3 →
      shouldNotRetry e1 = false → shouldNotRetry e2 = false →
      withRetry op 3 = some (.error e3, 3)) := by
  refine ⟨?_, ?_, ?_⟩
  · intro e1 e2 a h1 h2 h3 hr1 hr2
    simp [withRetry, retryGo, h1, h2, h3, hr1, hr2]
  · intro e h1 hcase
    have hsnr : shouldNotRetry e = true := by
      rcases hcase with h | ⟨st, hst, hlo, hhi⟩
      · simp [shouldNotRetry, h]
      · simp only [shouldNotRetry, hst, Bool.or_eq_true, decide_eq_true_eq]
        exact Or.inl ⟨hlo, hhi⟩
    simp [withRetry, retryGo, h1, hsnr]
  · intro e1 e2 e3 h1 h2 h3 hr1 hr2
    simp [withRetry, retryGo, h1, h2, h3, hr1, hr2]

/-- Operation used by the C6 witness: fails with a retryable upstream error
on attempts 1 and 2, succeeds on attempt 3. -/
def retryWitnessOp : Nat → Except JsError Nat :=
  fun n => if n < 3 then .error { etype := some .apiError } else .ok 42

/-- Claim C6 witness: the fail-twice-then-succeed operation returns 42 after
exactly 3 invocations. -/
theorem c6_witness : withRetry retryWitnessOp 3 = some (.ok 42, 3) :=
  (c6_withRetry_spec retryWitnessOp).1 { etype := some .apiError }
    { etype := some .apiError } 42 rfl rfl rfl rfl rfl

/-! ## Claim C3 -/

/-- A `filterMap` over fetch outcomes is the `map` over the ids whose fetch
succeeded, in order. -/
theorem filterMap_fetch (ok : String → Bool) (val : String → EpornerVideo)
    (g : String → EpornerVideo → MacCMSVideo) (l : List String) :
    l.filterMap (fun id => ((if ok id then some (val id) else none).map (g id))) =
    (l.filter ok).map (fun id => g id (val id)) := by
  have hfun : (fun id => ((if ok id = true then some (val id) else none).map
      (g id))) = (fun id => if ok id = true then some (g id (val id)) else none) := by
    funext id
    by_cases h : ok id = true <;> simp [h]
  rw [hfun]
  induction l with
  | nil => rfl
  | cons a t ih =>
    by_cases h : ok a = true <;>
      simp [List.filterMap_cons, List.filter_cons, h, ih]

/-- Claim C3 (confirmed): for a detail request with a non-empty validated id
list (at most 10 entries), each id is fetched independently (the fetch
outcome, after its retry budget, is modelled by `ok`/`val`).  Failing ids are
skipped: when at least one id succeeds the request returns the code-1
envelope whose list holds the transformed records of the succeeding ids in
input order, with `total` and `limit` equal to the number of successes; only
when every id fails does it return the Validation-kind
`未找到有效的视频数据` error envelope. -/
theorem c3_handleVideoDetail_skips_failures (env : JsEnv) (ok : String → Bool)
    (val : String → EpornerVideo) (params : ProcessedParams)
    (ids : List String) (hids : params.videoIds = some ids) (hne : ids ≠ [])
    (hlen : ids.length ≤ 10) :
    (ids.filter ok = [] →
      handleVideoDetail env (fun id => if ok id then some (val id) else none)
          params =
        .err (createErrorResponse
          (handleValidationError env "未找到有效的视频数据")) "error") ∧
    (ids.filter ok ≠ [] →
      handleVideoDetail env (fun id => if ok id then some (val id) else none)
          params =
        .ok { code := 1, msg := "数据列表", page := 1, pagecount := 1,
              limit := ((ids.filter ok).length : Int),
              total := ((ids.filter ok).length : Int),
              list := (ids.filter ok).map fun id =>
                transformVideo env (val id) (detailVodId id) }
          "detail") := by
  have htake : ids.take 10 = ids := List.take_of_length_le hlen
  have hunf : handleVideoDetail env
      (fun id => if ok id then some (val id) else none) params =
      (if ((ids.filter ok).map fun id =>
            transformVideo env (val id) (detailVodId id)).length = 0 then
        DetailResult.err (createErrorResponse
          (handleValidationError env "未找到有效的视频数据")) "error"
      else
        .ok { code := 1, msg := "数据列表", page := 1, pagecount := 1,
              limit := (((ids.filter ok).map fun id =>
                transformVideo env (val id) (detailVodId id)).length : Int),
              total := (((ids.filter ok).map fun id =>
                transformVideo env (val id) (detailVodId id)).length : Int),
              list := (ids.filter ok).map fun id =>
                transformVideo env (val id) (detailVodId id) }
          "detail") := by
    simp only [handleVideoDetail, hids, Option.getD_some]
    rw [if_neg (by simp [hne]), htake,
      filterMap_fetch ok val (fun id detail => transformVideo env detail (detailVodId id))]
  constructor
  · intro hf
    rw [hunf, if_pos (by simp [hf])]
  · intro hf
    rw [hunf, if_neg (by simp [hf])]
    simp [List.length_map]

/-- Video record used by the C3 witness. -/
def video0 : EpornerVideo :=
  { id := "a", title := "T", keywords := "", url := "u", embed := "e",
    added := "2024-01-01", length_sec := 60 }

/-- Claim C3 witness: of the ids `["a", "b"]`, `"b"` fails resolution; the
request still succeeds with exactly the record for `"a"` and
`total = limit = 1`. -/
theorem c3_witness :
    handleVideoDetail env0
        (fun id => if decide (id = "a") = true then some video0 else none)
        { action := .detail, page := 1, limit := 20,
          videoIds := some ["a", "b"], filters := {} } =
      .ok { code := 1, msg := "数据列表", page := 1, pagecount := 1,
            limit := (((["a", "b"].filter fun id => decide (id = "a")).length
              : Nat) : Int),
            total := (((["a", "b"].filter fun id => decide (id = "a")).length
              : Nat) : Int),
            list := (["a", "b"].filter fun id => decide (id = "a")).map
              fun id => transformVideo env0 video0 (detailVodId id) }
        "detail" :=
  (c3_handleVideoDetail_skips_failures env0 (fun id => decide (id = "a"))
    (fun _ => video0)
    { action := .detail, page := 1, limit := 20,
      videoIds := some ["a", "b"], filters := {} }
    ["a", "b"] rfl (by decide) (by decide)).2 (by decide)

/-! ## Claim C7 -/

/-- Projecting the assigned id back out of a transformed record. -/
theorem transformVideo_vod_id (env : JsEnv) (v : EpornerVideo) (vodId : Int) :
    (transformVideo env v vodId).vod_id = vodId := rfl

/-- Claim C7 (confirmed): `transformSearchResponse` returns a code-1 envelope
whose `pagecount` is the provider total_pages when non-zero and otherwise the
ceiling of `total_count / limit` (characterized arithmetically); whose
`total` is `total_count`, falling back to the page's video count when
`total_count` is zero; and whose record at index `i` carries
`vod_id = (page-1)*limit + i + 1`. -/
theorem c7_transformSearchResponse_spec (env : JsEnv)
    (resp : EpornerSearchResponse) (page limit : Int) (hl : 0 < limit)
    :
    (transformSearchResponse env resp page limit).code = 1 ∧
    (transformSearchResponse env resp page limit).limit = limit ∧
    (resp.total_pages ≠ 0 →
      (transformSearchResponse env resp page limit).pagecount =
        resp.total_pages) ∧
    (resp.total_pages = 0 →
      (resp.total_count = 0 →
        (transformSearchResponse env resp page limit).pagecount = 0) ∧
      (0 < resp.total_count →
        limit * ((transformSearchResponse env resp page limit).pagecount - 1) <
          resp.total_count ∧
        resp.total_count ≤
          limit * (transformSearchResponse env resp page limit).pagecount)) ∧
    (resp.total_count ≠ 0 →
      (transformSearchResponse env resp page limit).total =
        resp.total_count) ∧
    (resp.total_count = 0 →
      (transformSearchResponse env resp page limit).total =
        (resp.videos.length : Int)) ∧
    (∀ i (hi : i < (transformSearchResponse env resp page limit).list.length),
      ((transformSearchResponse env resp page limit).list.get ⟨i, hi⟩).vod_id =
        (page - 1) * limit + i + 1) := by
  refine ⟨rfl, rfl, ?_, ?_, ?_, ?_, ?_⟩
  · intro h
    simp [transformSearchResponse, h]
  · intro h
    constructor
    · intro h0
      simp only [transformSearchResponse, h, h0, jsMathCeilDiv]
      norm_num
      exact Int.zero_ediv limit
    · intro hpos
      have hunf : (transformSearchResponse env resp page limit).pagecount =
          -((-resp.total_count).ediv limit) := by
        simp [transformSearchResponse, h, jsMathCeilDiv]
      rw [hunf]
      have hnn : 0 ≤ (-resp.total_count).emod limit :=
        Int.emod_nonneg (-resp.total_count) (ne_of_gt hl)
      have hub : (-resp.total_count).emod limit < limit :=
        Int.emod_lt_of_pos (-resp.total_count) hl
      have hdm : limit * ((-resp.total_count).ediv limit) +
          (-resp.total_count).emod limit = -resp.total_count :=
        Int.ediv_add_emod (-resp.total_count) limit
      set q := (-resp.total_count).ediv limit with hq
      set r := (-resp.total_count).emod limit with hr
      have e1 : limit * (-q - 1) = -(limit * q) - limit := by ring
      have e2 : limit * (-q) = -(limit * q) := by ring
      constructor
      · rw [e1]
        linarith [hdm, hnn, hub]
      · rw [e2]
        linarith [hdm, hnn, hub]
  · intro h
    simp [transformSearchResponse, h]
  · intro h
    simp [transformSearchResponse, h]
  · intro i hi
    have hlen : i < resp.videos.enum.length := by
      simpa [transformSearchResponse] using hi
    simp only [transformSearchResponse, List.get_eq_getElem, List.getElem_map]
    rw [transformVideo_vod_id]
    have henum : resp.videos.enum[i].1 = i := by
      rw [List.getElem_enum]
    rw [henum]

/-- Claim C7 witness: a provider page with `total_count = 25` and no supplied
`total_pages`, requested with `page = 2`, `limit = 10`, reports `total = 25`
and a `pagecount` that is the ceiling of `25 / 10` (that is, 3). -/
theorem c7_witness :
    (transformSearchResponse env0 ⟨25, 0, 0, []⟩ 2 10).total = 25 ∧
    10 * ((transformSearchResponse env0 ⟨25, 0, 0, []⟩ 2 10).pagecount - 1) <
      25 ∧
    25 ≤ 10 * (transformSearchResponse env0 ⟨25, 0, 0, []⟩ 2 10).pagecount := by
  have h := c7_transformSearchResponse_spec env0 ⟨25, 0, 0, []⟩ 2 10 (by decide)
  refine ⟨h.2.2.2.2.1 (by decide), ?_, ?_⟩
  · exact ((h.2.2.2.1 rfl).2 (by decide)).1
  · exact ((h.2.2.2.1 rfl).2 (by decide)).2

/-! ## Claim C8: injectivity infrastructure for `generateCacheKey`

The cache key pipeline is: sort keys, percent-encode values, join `key=value`
segments with `&`, UTF-8 encode, base64 encode.  Each stage is shown
injective (on the relevant domain) by exhibiting a one-step decoder. -/

/-- Every character code point is below `0x110000`. -/
theorem charToNat_lt (c : Char) : c.toNat < 1114112 := by
  have h := c.valid
  unfold UInt32.isValidChar Nat.isValidChar at h
  rcases h with h | h <;> simp [Char.toNat] <;> omega

/-- `Char.toNat` is injective. -/
theorem charToNat_inj {c1 c2 : Char} (h : c1.toNat = c2.toNat) : c1 = c2 := by
  rw [← Char.ofNat_toNat c1, ← Char.ofNat_toNat c2, h]

/-- One-step UTF-8 decoder: reads the bytes of one code point. -/
def utf8DecodeOne : List Nat → Option (Nat × List Nat)
  | [] => none
  | b :: bs =>
    if b < 0x80 then some (b, bs)
    else if b < 0xE0 then
      match bs with
      | b2 :: bs2 => some ((b - 0xC0) * 64 + (b2 - 0x80), bs2)
      | [] => none
    else if b < 0xF0 then
      match bs with
      | b2 :: b3 :: bs3 =>
        some ((b - 0xE0) * 4096 + (b2 - 0x80) * 64 + (b3 - 0x80), bs3)
      | _ => none
    else
      match bs with
      | b2 :: b3 :: b4 :: bs4 =>
        some ((b - 0xF0) * 262144 + (b2 - 0x80) * 4096 + (b3 - 0x80) * 64 +
          (b4 - 0x80), bs4)
      | _ => none

/-- The one-step decoder inverts `utf8Bytes`. -/
theorem utf8DecodeOne_round (n : Nat) (hn : n < 1114112) (rest : List Nat) :
    utf8DecodeOne (utf8Bytes n ++ rest) = some (n, rest) := by
  by_cases h1 : n < 0x80
  · simp only [utf8Bytes, if_pos h1, List.cons_append, List.nil_append,
      utf8DecodeOne, if_pos h1]
  · by_cases h2 : n < 0x800
    · simp only [utf8Bytes, if_neg h1, if_pos h2, List.cons_append,
        List.nil_append, utf8DecodeOne]
      rw [if_neg (by omega), if_pos (by omega)]
      simp only [Option.some.injEq, Prod.mk.injEq]
      exact ⟨by omega, trivial⟩
    · by_cases h3 : n < 0x10000
      · simp only [utf8Bytes, if_neg h1, if_neg h2, if_pos h3,
          List.cons_append, List.nil_append, utf8DecodeOne]
        rw [if_neg (by omega), if_neg (by omega), if_pos (by omega)]
        simp only [Option.some.injEq, Prod.mk.injEq]
        exact ⟨by omega, trivial⟩
      · simp only [utf8Bytes, if_neg h1, if_neg h2, if_neg h3,
          List.cons_append, List.nil_append, utf8DecodeOne]
        rw [if_neg (by omega), if_neg (by omega), if_neg (by omega)]
        simp only [Option.some.injEq, Prod.mk.injEq]
        exact ⟨by omega, trivial⟩

/-- UTF-8 encodings are non-empty. -/
theorem utf8Bytes_ne_nil (n : Nat) : utf8Bytes n ≠ [] := by
  unfold utf8Bytes
  split_ifs <;> simp

/-- UTF-8 bytes are bytes. -/
theorem utf8Bytes_lt_256 (n : Nat) (hn : n < 1114112) :
    ∀ b ∈ utf8Bytes n, b < 256 := by
  intro b hb
  unfold utf8Bytes at hb
  split_ifs at hb with h1 h2 h3 <;> simp at hb <;> omega

/-- `utf8ByteList` on a cons. -/
theorem utf8ByteList_cons (c : Char) (l : List Char) :
    utf8ByteList (c :: l) = utf8Bytes c.toNat ++ utf8ByteList l := rfl

/-- `utf8ByteList` (hence `Buffer.from`) is injective. -/
theorem utf8ByteList_inj :
    ∀ {l1 l2 : List Char}, utf8ByteList l1 = utf8ByteList l2 → l1 = l2 := by
  intro l1
  induction l1 with
  | nil =>
    intro l2 h
    cases l2 with
    | nil => rfl
    | cons c t =>
      rw [utf8ByteList_cons] at h
      exact absurd (List.append_eq_nil.mp h.symm).1 (utf8Bytes_ne_nil _)
  | cons c t ih =>
    intro l2 h
    cases l2 with
    | nil =>
      rw [utf8ByteList_cons] at h
      exact absurd (List.append_eq_nil.mp h).1 (utf8Bytes_ne_nil _)
    | cons c2 t2 =>
      rw [utf8ByteList_cons, utf8ByteList_cons] at h
      have hd1 := utf8DecodeOne_round c.toNat (charToNat_lt c) (utf8ByteList t)
      have hd2 := utf8DecodeOne_round c2.toNat (charToNat_lt c2)
        (utf8ByteList t2)
      rw [h] at hd1
      rw [hd2] at hd1
      have hn := (Prod.mk.injEq _ _ _ _).mp (Option.some.inj hd1)
      rw [charToNat_inj hn.1.symm, ih hn.2.symm]

/-- Value of an uppercase hexadecimal digit character. -/
def hexVal (c : Char) : Nat :=
  if '0' ≤ c ∧ c ≤ '9' then c.toNat - '0'.toNat
  else if 'A' ≤ c ∧ c ≤ 'F' then c.toNat - 'A'.toNat + 10
  else 0

theorem hexVal_hexDigit : ∀ d, d < 16 → hexVal (hexDigit d) = d := by decide

theorem hexDigit_ne_pct : ∀ d, d < 16 → hexDigit d ≠ '%' := by decide

/-- The percent character is escaped by `encodeURIComponent`. -/
theorem isUriUnreserved_ne_pct {c : Char} (h : isUriUnreserved c = true) :
    c ≠ '%' := by
  intro heq
  subst heq
  exact absurd h (by decide)

/-- Reader for one `%XX` group. -/
def pctGroup : List Char → Option (Nat × List Char)
  | '%' :: hh1 :: hh2 :: r => some (hexVal hh1 * 16 + hexVal hh2, r)
  | _ => none

/-- `pctGroup` inverts one percent-escaped byte. -/
theorem pctGroup_hex (b : Nat) (hb : b < 256) (r : List Char) :
    pctGroup ('%' :: hexDigit (b / 16) :: hexDigit (b % 16) :: r) =
      some (b, r) := by
  rw [pctGroup, hexVal_hexDigit _ (by omega), hexVal_hexDigit _ (by omega)]
  simp only [Option.some.injEq, Prod.mk.injEq]
  exact ⟨by omega, trivial⟩

/-- One-step percent decoder: reads the percent groups (or the literal
unreserved character) of one code point. -/
def pctDecodeOne : List Char → Option (Nat × List Char)
  | [] => none
  | c :: rest =>
    if c = '%' then
      (pctGroup (c :: rest)).bind fun br =>
        if br.1 < 0x80 then some br
        else if br.1 < 0xE0 then
          (pctGroup br.2).map fun b2 =>
            ((br.1 - 0xC0) * 64 + (b2.1 - 0x80), b2.2)
        else if br.1 < 0xF0 then
          (pctGroup br.2).bind fun b2 =>
            (pctGroup b2.2).map fun b3 =>
              ((br.1 - 0xE0) * 4096 + (b2.1 - 0x80) * 64 + (b3.1 - 0x80), b3.2)
        else
          (pctGroup br.2).bind fun b2 =>
            (pctGroup b2.2).bind fun b3 =>
              (pctGroup b3.2).map fun b4 =>
                ((br.1 - 0xF0) * 262144 + (b2.1 - 0x80) * 4096 +
                  (b3.1 - 0x80) * 64 + (b4.1 - 0x80), b4.2)
    else some (c.toNat, rest)

/-- The one-step percent decoder inverts `encChar`. -/
theorem pctDecodeOne_round (c : Char) (rest : List Char) :
    pctDecodeOne (encChar c ++ rest) = some (c.toNat, rest) := by
  by_cases hu : isUriUnreserved c = true
  · rw [encChar, if_pos hu, List.cons_append, List.nil_append, pctDecodeOne,
      if_neg (isUriUnreserved_ne_pct hu)]
  · rw [encChar, if_neg hu]
    have hn := charToNat_lt c
    set n := c.toNat with hcn
    by_cases h1 : n < 0x80
    · rw [utf8Bytes, if_pos h1]
      simp only [List.foldr_cons, List.foldr_nil, percentByte,
        List.nil_append, List.cons_append, List.append_nil]
      rw [pctDecodeOne, if_pos rfl, pctGroup_hex n (by omega)]
      simp only [Option.some_bind]
      rw [if_pos (by omega)]
    · by_cases h2 : n < 0x800
      · rw [utf8Bytes, if_neg h1, if_pos h2]
        simp only [List.foldr_cons, List.foldr_nil, percentByte,
          List.nil_append, List.cons_append, List.append_nil]
        rw [pctDecodeOne, if_pos rfl, pctGroup_hex (0xC0 + n / 64) (by omega)]
        simp only [Option.some_bind]
        rw [if_neg (by omega), if_pos (by omega),
          pctGroup_hex (0x80 + n % 64) (by omega)]
        simp only [Option.map_some', Option.some.injEq, Prod.mk.injEq]
        exact ⟨by omega, trivial⟩
      · by_cases h3 : n < 0x10000
        · rw [utf8Bytes, if_neg h1, if_neg h2, if_pos h3]
          simp only [List.foldr_cons, List.foldr_nil, percentByte,
            List.nil_append, List.cons_append, List.append_nil]
          rw [pctDecodeOne, if_pos rfl,
            pctGroup_hex (0xE0 + n / 4096) (by omega)]
          simp only [Option.some_bind]
          rw [if_neg (by omega), if_neg (by omega), if_pos (by omega),
            pctGroup_hex (0x80 + n / 64 % 64) (by omega)]
          simp only [Option.some_bind]
          rw [pctGroup_hex (0x80 + n % 64) (by omega)]
          simp only [Option.map_some', Option.some.injEq, Prod.mk.injEq]
          exact ⟨by omega, trivial⟩
        · rw [utf8Bytes, if_neg h1, if_neg h2, if_neg h3]
          simp only [List.foldr_cons, List.foldr_nil, percentByte,
            List.nil_append, List.cons_append, List.append_nil]
          rw [pctDecodeOne, if_pos rfl,
            pctGroup_hex (0xF0 + n / 262144) (by omega)]
          simp only [Option.some_bind]
          rw [if_neg (by omega), if_neg (by omega), if_neg (by omega),
            pctGroup_hex (0x80 + n / 4096 % 64) (by omega)]
          simp only [Option.some_bind]
          rw [pctGroup_hex (0x80 + n / 64 % 64) (by omega)]
          simp only [Option.some_bind]
          rw [pctGroup_hex (0x80 + n % 64) (by omega)]
          simp only [Option.map_some', Option.some.injEq, Prod.mk.injEq]
          exact ⟨by omega, trivial⟩

/-- Character-list form of `encodeURIComponent`. -/
def encL (l : List Char) : List Char :=
  l.foldr (fun c acc => encChar c ++ acc) []

theorem encodeURIComponent_data (s : String) :
    (encodeURIComponent s).data = encL s.data := rfl

theorem encL_cons (c : Char) (l : List Char) :
    encL (c :: l) = encChar c ++ encL l := rfl

theorem encChar_ne_nil (c : Char) : encChar c ≠ [] := by
  unfold encChar
  split_ifs with h
  · simp
  · cases hb : utf8Bytes c.toNat with
    | nil => exact absurd hb (utf8Bytes_ne_nil _)
    | cons b bs => simp [percentByte]

/-- `encL` is injective (by the one-step decoder). -/
theorem encL_inj : ∀ {l1 l2 : List Char}, encL l1 = encL l2 → l1 = l2 := by
  intro l1
  induction l1 with
  | nil =>
    intro l2 h
    cases l2 with
    | nil => rfl
    | cons c t =>
      rw [encL_cons] at h
      exact absurd (List.append_eq_nil.mp h.symm).1 (encChar_ne_nil _)
  | cons c t ih =>
    intro l2 h
    cases l2 with
    | nil =>
      rw [encL_cons] at h
      exact absurd (List.append_eq_nil.mp h).1 (encChar_ne_nil _)
    | cons c2 t2 =>
      rw [encL_cons, encL_cons] at h
      have hd1 := pctDecodeOne_round c (encL t)
      have hd2 := pctDecodeOne_round c2 (encL t2)
      rw [h, hd2] at hd1
      have hn := (Prod.mk.injEq _ _ _ _).mp (Option.some.inj hd1)
      rw [charToNat_inj hn.1.symm, ih hn.2.symm]

theorem hexDigit_ne_amp : ∀ d, d < 16 → hexDigit d ≠ '&' := by decide

/-- Characters of a percent group are never `&`. -/
theorem percentByte_ne_amp (b : Nat) (hb : b < 256) :
    ∀ x ∈ percentByte b, x ≠ '&' := by
  intro x hx
  simp only [percentByte, List.mem_cons, List.not_mem_nil, or_false] at hx
  rcases hx with rfl | rfl | rfl
  · decide
  · exact hexDigit_ne_amp _ (by omega)
  · exact hexDigit_ne_amp _ (by omega)

/-- `encodeURIComponent` output never contains `&` (it is escaped). -/
theorem encChar_ne_amp (c : Char) : ∀ x ∈ encChar c, x ≠ '&' := by
  intro x hx
  unfold encChar at hx
  split_ifs at hx with h
  · simp only [List.mem_cons, List.not_mem_nil, or_false] at hx
    subst hx
    intro heq
    subst heq
    exact absurd h (by decide)
  · have hmem : ∀ (bs : List Nat),
        x ∈ bs.foldr (fun b acc => percentByte b ++ acc) [] →
        ∃ b ∈ bs, x ∈ percentByte b := by
      intro bs
      induction bs with
      | nil => intro hx; simp at hx
      | cons b bt ihb =>
        intro hx
        rcases List.mem_append.mp hx with hx | hx
        · exact ⟨b, List.mem_cons_self _ _, hx⟩
        · obtain ⟨b', hb', hxb⟩ := ihb hx
          exact ⟨b', List.mem_cons_of_mem _ hb', hxb⟩
    obtain ⟨b, hb, hxb⟩ := hmem _ hx
    exact percentByte_ne_amp b
      (utf8Bytes_lt_256 c.toNat (charToNat_lt c) b hb) x hxb

theorem encL_ne_amp (l : List Char) : ∀ x ∈ encL l, x ≠ '&' := by
  induction l with
  | nil => intro x hx; simp [encL] at hx
  | cons c t ih =>
    intro x hx
    rw [encL_cons] at hx
    rcases List.mem_append.mp hx with hx | hx
    · exact encChar_ne_amp c x hx
    · exact ih x hx

/-- Splitting at an unescaped `&`: two amp-free prefixes followed by `&` can
be cancelled. -/
theorem amp_split : ∀ (a : List Char) {b : List Char} {r1 r2 : List Char},
    (∀ x ∈ a, x ≠ '&') → (∀ x ∈ b, x ≠ '&') →
    a ++ '&' :: r1 = b ++ '&' :: r2 → a = b ∧ r1 = r2 := by
  intro a
  induction a with
  | nil =>
    intro b r1 r2 _ hb h
    cases b with
    | nil => simpa using h
    | cons y bs =>
      simp only [List.nil_append, List.cons_append, List.cons.injEq] at h
      exact absurd h.1.symm (hb y (List.mem_cons_self _ _))
  | cons x as ih =>
    intro b r1 r2 ha hb h
    cases b with
    | nil =>
      simp only [List.nil_append, List.cons_append, List.cons.injEq] at h
      exact absurd h.1 (ha x (List.mem_cons_self _ _))
    | cons y bs =>
      simp only [List.cons_append, List.cons.injEq] at h
      obtain ⟨rfl, h2⟩ := h
      have hr := ih (fun z hz => ha z (List.mem_cons_of_mem _ hz))
        (fun z hz => hb z (List.mem_cons_of_mem _ hz)) h2
      exact ⟨by rw [hr.1], hr.2⟩

/-- Character-level `&`-join, tail part: each piece preceded by `&`. -/
def joinTail : List (List Char) → List Char
  | [] => []
  | x :: xs => '&' :: (x ++ joinTail xs)

/-- Character-level `&`-join (the shape of `String.intercalate "&"`). -/
def joinAmp : List (List Char) → List Char
  | [] => []
  | x :: xs => x ++ joinTail xs

/-- `String.intercalate.go` at the character level. -/
theorem intercalate_go_data (as : List String) :
    ∀ acc : String, (String.intercalate.go acc "&" as).data =
      acc.data ++ joinTail (as.map String.data) := by
  induction as with
  | nil =>
    intro acc
    simp [String.intercalate.go, joinTail]
  | cons a t ih =>
    intro acc
    rw [String.intercalate.go, ih]
    simp [joinTail, String.data_append, List.append_assoc]

/-- `String.intercalate "&"` at the character level. -/
theorem intercalate_amp_data (l : List String) :
    (String.intercalate "&" l).data = joinAmp (l.map String.data) := by
  cases l with
  | nil => rfl
  | cons a t =>
    rw [String.intercalate, intercalate_go_data]
    rfl

/-- One `key=value` segment at the character level. -/
def segData (k v : String) : List Char := k.data ++ '=' :: encL v.data

/-- Injectivity of the joined segment list over a fixed key list: equal joins
force equal values at every key. -/
theorem joined_inj : ∀ (ks : List String) (f g : String → String),
    joinAmp (ks.map fun k => segData k (f k)) =
      joinAmp (ks.map fun k => segData k (g k)) →
    ∀ k ∈ ks, f k = g k := by
  intro ks
  induction ks with
  | nil => intro f g _ k hk; simp at hk
  | cons k0 kt ih =>
    intro f g h k hk
    simp only [List.map_cons, joinAmp, segData] at h
    rw [List.append_assoc, List.append_assoc] at h
    have h2 := List.append_cancel_left h
    simp only [List.cons_append, List.cons.injEq, true_and] at h2
    cases kt with
    | nil =>
      simp only [List.map_nil, joinTail, List.append_nil] at h2
      have hv : f k0 = g k0 := by
        have := encL_inj h2
        exact String.ext this
      rcases List.mem_cons.mp hk with rfl | hk'
      · exact hv
      · simp at hk'
    | cons k1 kt' =>
      simp only [List.map_cons, joinTail] at h2
      have hsplit := amp_split _ (encL_ne_amp _) (encL_ne_amp _) h2
      have hv : f k0 = g k0 := String.ext (encL_inj hsplit.1)
      have hrest : joinAmp ((k1 :: kt').map fun k => segData k (f k)) =
          joinAmp ((k1 :: kt').map fun k => segData k (g k)) := by
        simp only [List.map_cons, joinAmp, segData]
        exact hsplit.2
      rcases List.mem_cons.mp hk with rfl | hk'
      · exact hv
      · exact ih f g hrest k hk'

/-- Value of a base64 digit character (index in the alphabet). -/
def b64val (c : Char) : Nat :=
  "ABCDEFGHIJKLMNOPQRSTUVWXYZabcdefghijklmnopqrstuvwxyz0123456789+/".data.indexOf
    c

theorem b64val_b64digit : ∀ d, d < 64 → b64val (b64digit d) = d := by decide

theorem b64digit_ne_pad : ∀ d, d < 64 → b64digit d ≠ '=' := by decide

theorem base64Encode_ne_nil (a : Nat) (t : List Nat) :
    base64Encode (a :: t) ≠ [] := by
  cases t with
  | nil => simp [base64Encode]
  | cons b t2 => cases t2 <;> simp [base64Encode]

/-- `base64Encode` is injective on byte lists. -/
theorem base64Encode_inj : ∀ (xs : List Nat), (∀ v ∈ xs, v < 256) →
    ∀ (ys : List Nat), (∀ v ∈ ys, v < 256) →
    base64Encode xs = base64Encode ys → xs = ys := by
  have dig : ∀ x y, x < 64 → y < 64 → b64digit x = b64digit y → x = y := by
    intro x y hx hy h
    have := congrArg b64val h
    rwa [b64val_b64digit x hx, b64val_b64digit y hy] at this
  intro xs
  induction xs using base64Encode.induct with
  | case1 =>
    intro _ ys hys h
    cases ys with
    | nil => rfl
    | cons a t => exact absurd h.symm (base64Encode_ne_nil a t)
  | case2 a =>
    intro hxs ys hys h
    have ha : a < 256 := hxs a (List.mem_cons_self _ _)
    cases ys with
    | nil => exact absurd h (base64Encode_ne_nil a [])
    | cons a' t =>
      have ha' : a' < 256 := hys a' (List.mem_cons_self _ _)
      cases t with
      | nil =>
        simp only [base64Encode] at h
        injection h with h1 h
        injection h with h2 h
        have v1 := dig (a / 4) (a' / 4) (by omega) (by omega) h1
        have v2 := dig (a % 4 * 16) (a' % 4 * 16) (by omega) (by omega) h2
        have : a = a' := by omega
        rw [this]
      | cons b' t2 =>
        have hb' : b' < 256 := hys b' (by simp)
        cases t2 with
        | nil =>
          simp only [base64Encode] at h
          injection h with h1 h
          injection h with h2 h
          injection h with h3 h
          exact absurd h3.symm (b64digit_ne_pad (b' % 16 * 4) (by omega))
        | cons c' t3 =>
          have hc' : c' < 256 := hys c' (by simp)
          simp only [base64Encode] at h
          injection h with h1 h
          injection h with h2 h
          injection h with h3 h
          exact absurd h3.symm
            (b64digit_ne_pad (b' % 16 * 4 + c' / 64) (by omega))
  | case3 a b =>
    intro hxs ys hys h
    have ha : a < 256 := hxs a (by simp)
    have hb : b < 256 := hxs b (by simp)
    cases ys with
    | nil => exact absurd h (base64Encode_ne_nil a [b])
    | cons a' t =>
      have ha' : a' < 256 := hys a' (by simp)
      cases t with
      | nil =>
        simp only [base64Encode] at h
        injection h with h1 h
        injection h with h2 h
        injection h with h3 h
        exact absurd h3 (b64digit_ne_pad (b % 16 * 4) (by omega))
      | cons b' t2 =>
        have hb' : b' < 256 := hys b' (by simp)
        cases t2 with
        | nil =>
          simp only [base64Encode] at h
          injection h with h1 h
          injection h with h2 h
          injection h with h3 h
          have v1 := dig (a / 4) (a' / 4) (by omega) (by omega) h1
          have v2 := dig (a % 4 * 16 + b / 16) (a' % 4 * 16 + b' / 16)
            (by omega) (by omega) h2
          have v3 := dig (b % 16 * 4) (b' % 16 * 4) (by omega) (by omega) h3
          have : a = a' ∧ b = b' := by omega
          rw [this.1, this.2]
        | cons c' t3 =>
          have hc' : c' < 256 := hys c' (by simp)
          simp only [base64Encode] at h
          injection h with h1 h
          injection h with h2 h
          injection h with h3 h
          injection h with h4 h
          exact absurd h4.symm (b64digit_ne_pad (c' % 64) (by omega))
  | case4 a b c t ih =>
    intro hxs ys hys h
    have ha : a < 256 := hxs a (by simp)
    have hb : b < 256 := hxs b (by simp)
    have hc : c < 256 := hxs c (by simp)
    cases ys with
    | nil => exact absurd h (base64Encode_ne_nil a (b :: c :: t))
    | cons a' t1 =>
      have ha' : a' < 256 := hys a' (by simp)
      cases t1 with
      | nil =>
        simp only [base64Encode] at h
        injection h with h1 h
        injection h with h2 h
        injection h with h3 h
        exact absurd h3 (b64digit_ne_pad (b % 16 * 4 + c / 64) (by omega))
      | cons b' t2 =>
        have hb' : b' < 256 := hys b' (by simp)
        cases t2 with
        | nil =>
          simp only [base64Encode] at h
          injection h with h1 h
          injection h with h2 h
          injection h with h3 h
          injection h with h4 h
          exact absurd h4 (b64digit_ne_pad (c % 64) (by omega))
        | cons c' t3 =>
          have hc' : c' < 256 := hys c' (by simp)
          simp only [base64Encode] at h
          injection h with h1 h
          injection h with h2 h
          injection h with h3 h
          injection h with h4 h
          have v1 := dig (a / 4) (a' / 4) (by omega) (by omega) h1
          have v2 := dig (a % 4 * 16 + b / 16) (a' % 4 * 16 + b' / 16)
            (by omega) (by omega) h2
          have v3 := dig (b % 16 * 4 + c / 64) (b' % 16 * 4 + c' / 64)
            (by omega) (by omega) h3
          have v4 := dig (c % 64) (c' % 64) (by omega) (by omega) h4
          have heq : a = a' ∧ b = b' ∧ c = c' := by omega
          have ht : t = t3 :=
            ih (fun v hv => hxs v (by simp [hv])) t3
              (fun v hv => hys v (by simp [hv])) h
          rw [heq.1, heq.2.1, heq.2.2, ht]

/-- Sorting keys is insensitive to the order they were supplied in. -/
theorem mergeSort_eq_of_perm {l1 l2 : List String} (h : l1.Perm l2) :
    l1.mergeSort (fun a b => decide (a ≤ b)) =
      l2.mergeSort (fun a b => decide (a ≤ b)) := by
  have htrans : ∀ a b c : String, decide (a ≤ b) = true →
      decide (b ≤ c) = true → decide (a ≤ c) = true := by
    intro a b c hab hbc
    exact decide_eq_true
      (le_trans (of_decide_eq_true hab) (of_decide_eq_true hbc))
  have htotal : ∀ a b : String, (decide (a ≤ b) || decide (b ≤ a)) = true := by
    intro a b
    rcases le_total a b with hle | hle <;> simp [hle]
  apply List.eq_of_perm_of_sorted (r := (· ≤ · : String → String → Prop))
  · exact ((List.mergeSort_perm l1 _).trans h).trans
      (List.mergeSort_perm l2 _).symm
  · exact (List.sorted_mergeSort htrans htotal l1).imp
      fun hab => of_decide_eq_true hab
  · exact (List.sorted_mergeSort htrans htotal l2).imp
      fun hab => of_decide_eq_true hab

/-- With distinct keys, `lookup` is insensitive to permutation (JS objects
cannot have duplicate keys). -/
theorem lookup_perm : ∀ {l1 l2 : List (String × String)}, l1.Perm l2 →
    (l1.map Prod.fst).Nodup → ∀ k : String, l1.lookup k = l2.lookup k := by
  intro l1 l2 h
  induction h with
  | nil => intro _ _; rfl
  | cons x h ih =>
    intro nd k
    rw [List.map_cons] at nd
    have nd' := (List.nodup_cons.mp nd).2
    cases hbeq : k == x.1 with
    | true => simp [List.lookup, hbeq]
    | false => simp [List.lookup, hbeq, ih nd' k]
  | swap x y t =>
    intro nd k
    rw [List.map_cons, List.map_cons] at nd
    have hm := (List.nodup_cons.mp nd).1
    have hne : y.1 ≠ x.1 := fun heq => hm (List.mem_cons.mpr (Or.inl heq))
    cases hbeq1 : k == y.1 with
    | true =>
      cases hbeq2 : k == x.1 with
      | true =>
        exact absurd ((eq_of_beq hbeq1).symm.trans (eq_of_beq hbeq2)) hne
      | false => simp [List.lookup, hbeq1, hbeq2]
    | false =>
      cases hbeq2 : k == x.1 with
      | true => simp [List.lookup, hbeq1, hbeq2]
      | false => simp [List.lookup, hbeq1, hbeq2]
  | trans h1 _ ih1 ih2 =>
    intro nd k
    have nd2 := ((h1.map Prod.fst).nodup_iff).mp nd
    exact (ih1 nd k).trans (ih2 nd2 k)

/-- A successful lookup means the key is present. -/
theorem lookup_mem_keys : ∀ {l : List (String × String)} {k : String}
    {v : String}, l.lookup k = some v → k ∈ l.map Prod.fst := by
  intro l
  induction l with
  | nil => intro k v h; simp [List.lookup] at h
  | cons x t ih =>
    intro k v h
    cases hbeq : k == x.1 with
    | true => exact List.mem_cons.mpr (Or.inl (eq_of_beq hbeq))
    | false =>
      simp only [List.lookup, hbeq] at h
      exact List.mem_cons.mpr (Or.inr (ih h))

/-- All UTF-8 bytes of a character list are bytes. -/
theorem utf8ByteList_lt_256 (l : List Char) :
    ∀ v ∈ utf8ByteList l, v < 256 := by
  induction l with
  | nil => intro v hv; simp [utf8ByteList] at hv
  | cons c t ih =>
    intro v hv
    rw [utf8ByteList_cons] at hv
    rcases List.mem_append.mp hv with hv | hv
    · exact utf8Bytes_lt_256 c.toNat (charToNat_lt c) v hv
    · exact ih v hv

/-- One cache-key segment at the character level. -/
theorem cacheKeySegment_data (params : List (String × String)) (kk : String) :
    (cacheKeySegment params kk).data =
      segData kk ((params.lookup kk).getD "") := by
  simp [cacheKeySegment, segData, String.data_append, encodeURIComponent_data]

/-- Claim C8 (confirmed): `generateCacheKey` is deterministic and insensitive
to parameter ordering — permuted parameter maps with distinct keys yield the
identical key string — and maps that agree everywhere except in the value
bound at one key (such as the keyword) yield different key strings. -/
theorem c8_generateCacheKey_spec (pfx : String)
    (p1 p2 q1 q2 : List (String × String)) (k : String) (v1 v2 : String)
    (hnd1 : (p1.map Prod.fst).Nodup) (hperm : p1.Perm p2)
    (hqkeys : (q1.map Prod.fst).Perm (q2.map Prod.fst))
    (_hothers : ∀ kk, kk ≠ k → q1.lookup kk = q2.lookup kk)
    (hv1 : q1.lookup k = some v1) (hv2 : q2.lookup k = some v2)
    (hne : v1 ≠ v2) :
    generateCacheKey pfx p1 = generateCacheKey pfx p2 ∧
    generateCacheKey pfx q1 ≠ generateCacheKey pfx q2 := by
  constructor
  · simp only [generateCacheKey]
    rw [mergeSort_eq_of_perm (hperm.map Prod.fst)]
    have hseg : ∀ kk ∈ (p2.map Prod.fst).mergeSort (fun a b => decide (a ≤ b)),
        cacheKeySegment p1 kk = cacheKeySegment p2 kk := by
      intro kk _
      simp only [cacheKeySegment, lookup_perm hperm hnd1 kk]
    rw [List.map_congr_left hseg]
  · intro heq
    simp only [generateCacheKey] at heq
    rw [mergeSort_eq_of_perm hqkeys] at heq
    set ks := (q2.map Prod.fst).mergeSort (fun a b => decide (a ≤ b)) with hks
    set s1 := String.intercalate "&" (ks.map (cacheKeySegment q1)) with hs1
    set s2 := String.intercalate "&" (ks.map (cacheKeySegment q2)) with hs2
    have hd : ("maccms:" ++ pfx ++ ":").data ++ (bufferBase64 s1).data =
        ("maccms:" ++ pfx ++ ":").data ++ (bufferBase64 s2).data := by
      rw [← String.data_append, ← String.data_append, heq]
    have hb64 := List.append_cancel_left hd
    have hbytes : utf8ByteList s1.data = utf8ByteList s2.data :=
      base64Encode_inj _ (utf8ByteList_lt_256 _) _ (utf8ByteList_lt_256 _)
        hb64
    have hSdata : s1.data = s2.data := utf8ByteList_inj hbytes
    have hJ1 : s1.data = joinAmp (ks.map fun kk =>
        segData kk ((q1.lookup kk).getD "")) := by
      rw [hs1, intercalate_amp_data, List.map_map]
      congr 1
      exact List.map_congr_left fun kk _ => cacheKeySegment_data q1 kk
    have hJ2 : s2.data = joinAmp (ks.map fun kk =>
        segData kk ((q2.lookup kk).getD "")) := by
      rw [hs2, intercalate_amp_data, List.map_map]
      congr 1
      exact List.map_congr_left fun kk _ => cacheKeySegment_data q2 kk
    have hkmem : k ∈ ks := by
      rw [hks]
      exact (List.mergeSort_perm _ _).mem_iff.mpr
        (hqkeys.mem_iff.mp (lookup_mem_keys hv1))
    have hvals := joined_inj ks (fun kk => (q1.lookup kk).getD "")
      (fun kk => (q2.lookup kk).getD "")
      (by rw [← hJ1, ← hJ2, hSdata]) k hkmem
    have hvals' : (q1.lookup k).getD "" = (q2.lookup k).getD "" := hvals
    rw [hv1, hv2] at hvals'
    exact hne hvals'

/-- Claim C8 witness: the maps `{wd: a, pg: 1}` and `{pg: 1, wd: a}` share a
key, while changing the keyword value to `b` changes the key. -/
theorem c8_witness :
    generateCacheKey "search" [("wd", "a"), ("pg", "1")] =
      generateCacheKey "search" [("pg", "1"), ("wd", "a")] ∧
    generateCacheKey "search" [("wd", "a"), ("pg", "1")] ≠
      generateCacheKey "search" [("wd", "b"), ("pg", "1")] := by
  have h := c8_generateCacheKey_spec "search"
    [("wd", "a"), ("pg", "1")] [("pg", "1"), ("wd", "a")]
    [("wd", "a"), ("pg", "1")] [("wd", "b"), ("pg", "1")]
    "wd" "a" "b"
    (by decide) (by decide) (by decide)
    (by
      intro kk hkk
      by_cases hp : kk = "pg"
      · rw [hp]; rfl
      · have hw : (kk == "wd") = false := by
          simp [hkk]
        have hpg : (kk == "pg") = false := by
          simp [hp]
        have h1 : ([("wd", "a"), ("pg", "1")] : List (String × String)).lookup
            kk = none := by
          simp [List.lookup, hw, hpg]
        have h2 : ([("wd", "b"), ("pg", "1")] : List (String × String)).lookup
            kk = none := by
          simp [List.lookup, hw, hpg]
        rw [h1, h2])
    rfl rfl (by decide)
  exact h

end Maccms
